import Mathlib

/-
Verification development for the memory tile-matching game backend
(src/__main__.py, a FastAPI application).

Modelling conventions:
- random.shuffle is modelled by passing the shuffled list of pair ids as an
  explicit parameter (any permutation of basePhotos is a possible outcome).
- secrets.token_urlsafe is modelled by passing the token as a parameter.
- time.time, threading.Timer, threading.Event (the 65 second expiry machinery)
  are real-time and threading constructs and are out of scope of this
  sequential embedding; the fields started_at, ended_event and end_timer carry
  no game logic and are omitted from the state.
- the _token2game class dictionary is modelled as an association list from
  token to game; dict lookup, assignment and pop become find-based lookup,
  pointwise update and filter-based removal (keys are unique by construction).
- machine integers: Python ints are unbounded, so score is a Lean Int and
  pair ids are Nat.
- HTTPException(404)/HTTPException(409) become the ApiError values notFound
  and conflict; FastAPI validates 0 <= row, col <= 3 before the handler runs,
  so the handler body is modelled for in-range coordinates, with List.getD
  defaults standing in for indices FastAPI never lets through.
-/

/-- The four tile visibility states of class ImgStatus. -/
inductive ImgStatus where
  | CLOSED
  | TEMP_OPEN
  | OPEN
  | CLOSING
deriving DecidableEq

/-- class Item(BaseModel): photoId plus a status whose pydantic Field default
is ImgStatus.CLOSING (exactly as in the source, line 36). -/
structure Item where
  photoId : Nat
  status : ImgStatus := ImgStatus.CLOSING
deriving DecidableEq

/-- Default returned by out-of-range list access in this model; FastAPI range
validation keeps real executions away from it. -/
def defaultItem : Item := { photoId := 0, status := ImgStatus.CLOSED }

/-- class Game(BaseModel): token, items, ended, score.  started_at is a
wall-clock timestamp with no game logic and is omitted. -/
structure Game where
  token : String
  items : List (List Item)
  ended : Bool := false
  score : Int := 0
deriving DecidableEq

/-- list(range(8)) * 2 from Game.createItems: the 16 pair-id values before
the shuffle. -/
def basePhotos : List Nat := List.range 8 ++ List.range 8

/-- Game.createItems: lay the (already shuffled) 16 pair ids row-major into a
4 by 4 grid; Item(photoId=p) takes the pydantic status default. -/
def createItems (photos : List Nat) : List (List Item) :=
  (List.range 4).map (fun i => ((photos.drop (i * 4)).take 4).map (fun p => { photoId := p }))

/-- game.items[row][col] (read access). -/
def getTile (items : List (List Item)) (row col : Nat) : Item :=
  (items.getD row []).getD col defaultItem

/-- item.status = s on the tile at (row, col): in-place mutation of one cell,
expressed functionally. -/
def setTile (items : List (List Item)) (row col : Nat) (s : ImgStatus) : List (List Item) :=
  items.set row
    ((items.getD row []).set col
      { (items.getD row []).getD col defaultItem with status := s })

/-- One step of the cleanup half of the board scan: a CLOSING tile becomes
CLOSED, every other tile is untouched. -/
def closeItem (it : Item) : Item :=
  if it.status = ImgStatus.CLOSING then { it with status := ImgStatus.CLOSED } else it

/-- The cleanup half of the board scan in open_game_pic: every tile currently
CLOSING is transitioned to CLOSED. -/
def closeClosing (items : List (List Item)) : List (List Item) :=
  items.map (fun row => row.map closeItem)

/-- Column indices (offset by j0) of the TEMP_OPEN tiles of one row, in scan
order. -/
def tempOpenRow (j0 : Nat) : List Item → List Nat
  | [] => []
  | it :: rest =>
    if it.status = ImgStatus.TEMP_OPEN then j0 :: tempOpenRow (j0 + 1) rest
    else tempOpenRow (j0 + 1) rest

/-- Row-major positions of the TEMP_OPEN tiles, rows counted from i0. -/
def tempOpenRows (i0 : Nat) : List (List Item) → List (Nat × Nat)
  | [] => []
  | row :: rest =>
    (tempOpenRow 0 row).map (fun j => (i0, j)) ++ tempOpenRows (i0 + 1) rest

/-- The collection half of the board scan in open_game_pic: the positions of
the tiles appended to temp_opened, in row-major scan order.  The Python loop
collects TEMP_OPEN tiles and closes CLOSING tiles in a single pass; the two
actions touch disjoint tiles and never interfere, so the pass is split here
into tempOpenPositions and closeClosing. -/
def tempOpenPositions (items : List (List Item)) : List (Nat × Nat) :=
  tempOpenRows 0 items

/-- len(opened): the number of tiles with status OPEN on the whole board. -/
def countOpen (items : List (List Item)) : Nat :=
  ((items.map (fun row => row.filter (fun it => it.status = ImgStatus.OPEN))).flatten).length

/-- The board right after item.status = ImgStatus.TEMP_OPEN on the addressed
tile (line 135). -/
def afterSelect (g : Game) (row col : Nat) : List (List Item) :=
  setTile g.items row col ImgStatus.TEMP_OPEN

/-- temp_opened, as positions: the TEMP_OPEN tiles right after the addressed
tile was selected. -/
def selected (g : Game) (row col : Nat) : List (Nat × Nat) :=
  tempOpenPositions (afterSelect g row col)

/-- The board after the full scan of lines 138-143 (selection made, every
CLOSING tile closed). -/
def afterClean (g : Game) (row col : Nat) : List (List Item) :=
  closeClosing (afterSelect g row col)

/-- temp_opened[0]: position of the first TEMP_OPEN tile in scan order. -/
def firstSel (g : Game) (row col : Nat) : Nat × Nat :=
  (selected g row col).getD 0 (0, 0)

/-- temp_opened[1]: position of the second TEMP_OPEN tile in scan order. -/
def secondSel (g : Game) (row col : Nat) : Nat × Nat :=
  (selected g row col).getD 1 (0, 0)

/-- The errors the endpoints raise: HTTPException(404) and HTTPException(409). -/
inductive ApiError where
  | notFound
  | conflict
deriving DecidableEq

/-- The guard of line 132: the addressed tile is already visible. -/
def conflictAt (g : Game) (row col : Nat) : Prop :=
  (getTile g.items row col).status = ImgStatus.OPEN ∨
    (getTile g.items row col).status = ImgStatus.TEMP_OPEN

instance (g : Game) (row col : Nat) : Decidable (conflictAt g row col) := by
  unfold conflictAt; infer_instance

/-- The comparison of line 151: item1.photoId == item2.photoId for the first
two TEMP_OPEN tiles in scan order, read off the board after the scan. -/
def pairMatches (g : Game) (row col : Nat) : Prop :=
  (getTile (afterClean g row col) (firstSel g row col).1 (firstSel g row col).2).photoId =
    (getTile (afterClean g row col) (secondSel g row col).1 (secondSel g row col).2).photoId

instance (g : Game) (row col : Nat) : Decidable (pairMatches g row col) := by
  unfold pairMatches; infer_instance

/-- Lines 152-155: both resolved tiles become OPEN, score goes up by 30. -/
def matchResult (g : Game) (row col : Nat) : Game :=
  { g with
    items := setTile
      (setTile (afterClean g row col) (firstSel g row col).1 (firstSel g row col).2
        ImgStatus.OPEN)
      (secondSel g row col).1 (secondSel g row col).2 ImgStatus.OPEN,
    score := g.score + 30 }

/-- Lines 156-160: score goes down by 10, both resolved tiles become CLOSING. -/
def mismatchResult (g : Game) (row col : Nat) : Game :=
  { g with
    items := setTile
      (setTile (afterClean g row col) (firstSel g row col).1 (firstSel g row col).2
        ImgStatus.CLOSING)
      (secondSel g row col).1 (secondSel g row col).2 ImgStatus.CLOSING,
    score := g.score - 10 }

/-- The game after the pair resolution of lines 148-160. -/
def resolveResult (g : Game) (row col : Nat) : Game :=
  if pairMatches g row col then matchResult g row col else mismatchResult g row col

/-- The body of open_game_pic on a fetched game (lines 130-172): conflict
check, selection, scan, pair resolution, score update and win detection.
game.end() also pops the token from the store; that store effect lives in
open_game_pic below, keyed on the ended flag actually flipping. -/
def revealCore (g : Game) (row col : Nat) : Except ApiError Game :=
  if conflictAt g row col then
    Except.error ApiError.conflict
  else if (selected g row col).length < 2 then
    Except.ok { g with items := afterClean g row col }
  else if countOpen (resolveResult g row col).items = 16 then
    Except.ok { resolveResult g row col with ended := true }
  else Except.ok (resolveResult g row col)

deriving instance DecidableEq for Except

/-- The session store: GameWithExtras._token2game as an association list. -/
abbrev Store : Type := List (String × Game)

/-- Dictionary lookup _token2game.get(token, None). -/
def storeGet (st : Store) (tok : String) : Option Game :=
  (st.find? (fun e => e.1 == tok)).map (fun e => e.2)

/-- Dictionary assignment for an existing key (the dict entry aliases the
mutated game object, so a mutation updates the stored value in place). -/
def storeUpdate (st : Store) (tok : String) (g : Game) : Store :=
  st.map (fun e => if e.1 == tok then (e.1, g) else e)

/-- _token2game.pop(token). -/
def storeRemove (st : Store) (tok : String) : Store :=
  st.filter (fun e => !(e.1 == tok))

/-- create_game endpoint: build the board from the shuffled pair ids, store
the game under its fresh token, return it. -/
def create_game (tok : String) (photos : List Nat) (st : Store) : Game × Store :=
  let g : Game := { token := tok, items := createItems photos }
  (g, (tok, g) :: st)

/-- get_game_by_token endpoint: dict lookup, 404 when absent. -/
def get_game_by_token (st : Store) (tok : String) : Except ApiError Game :=
  match storeGet st tok with
  | none => Except.error ApiError.notFound
  | some g => Except.ok g

/-- open_game_pic endpoint: fetch the game via get_game_by_token, run the
reveal body, and mirror game.end()s store effect: the token is popped exactly
when the ended flag transitions false to true (end() guards on the flag not
being set yet).  Errors leave the store untouched. -/
def open_game_pic (st : Store) (tok : String) (row col : Nat) :
    Except ApiError Game × Store :=
  match storeGet st tok with
  | none => (Except.error ApiError.notFound, st)
  | some g =>
    match revealCore g row col with
    | Except.error e => (Except.error e, st)
    | Except.ok g1 =>
      if g1.ended && !g.ended then (Except.ok g1, storeRemove st g1.token)
      else (Except.ok g1, storeUpdate st tok g1)

/-- What response_model=Game serializes for one tile: every declared field of
Item, i.e. both photoId and status, regardless of the status. -/
def serializeItem (it : Item) : Nat × ImgStatus :=
  (it.photoId, it.status)

/-- The wire form of a Game under response_model=Game (used by all three
endpoints): token, the full tile grid through serializeItem, ended, score. -/
structure SerializedGame where
  token : String
  items : List (List (Nat × ImgStatus))
  ended : Bool
  score : Int
deriving DecidableEq

/-- FastAPI serialization of a Game response. -/
def serializeGame (g : Game) : SerializedGame :=
  { token := g.token
    items := g.items.map (fun row => row.map serializeItem)
    ended := g.ended
    score := g.score }

/-- The photoId grid of a board: the arrangement that must stay fixed after
creation. -/
def photoGrid (items : List (List Item)) : List (List Nat) :=
  items.map (fun row => row.map Item.photoId)

/-- Well-formed board: the 4 by 4 shape every created session has. -/
def wf4x4 (items : List (List Item)) : Prop :=
  items.length = 4 ∧ ∀ row ∈ items, row.length = 4

instance (items : List (List Item)) : Decidable (wf4x4 items) := by
  unfold wf4x4; infer_instance


/-- Shorthand for a concrete tile. -/
def tl (p : Nat) (s : ImgStatus) : Item := { photoId := p, status := s }

/-- Concrete session: first pick already made at (0, 0); the tile at (0, 1)
carries a different pair id, the one at (0, 2) the same pair id. -/
def gMismatch : Game :=
  { token := "tok",
    items :=
      [[tl 0 ImgStatus.TEMP_OPEN, tl 1 ImgStatus.CLOSED, tl 0 ImgStatus.CLOSED, tl 1 ImgStatus.CLOSED],
       [tl 2 ImgStatus.CLOSED, tl 3 ImgStatus.CLOSED, tl 2 ImgStatus.CLOSED, tl 3 ImgStatus.CLOSED],
       [tl 4 ImgStatus.CLOSED, tl 5 ImgStatus.CLOSED, tl 4 ImgStatus.CLOSED, tl 5 ImgStatus.CLOSED],
       [tl 6 ImgStatus.CLOSED, tl 7 ImgStatus.CLOSED, tl 6 ImgStatus.CLOSED, tl 7 ImgStatus.CLOSED]] }

/-- Concrete session: all tiles CLOSED (no selection pending). -/
def gAllClosed : Game :=
  { token := "tok",
    items :=
      [[tl 0 ImgStatus.CLOSED, tl 1 ImgStatus.CLOSED, tl 0 ImgStatus.CLOSED, tl 1 ImgStatus.CLOSED],
       [tl 2 ImgStatus.CLOSED, tl 3 ImgStatus.CLOSED, tl 2 ImgStatus.CLOSED, tl 3 ImgStatus.CLOSED],
       [tl 4 ImgStatus.CLOSED, tl 5 ImgStatus.CLOSED, tl 4 ImgStatus.CLOSED, tl 5 ImgStatus.CLOSED],
       [tl 6 ImgStatus.CLOSED, tl 7 ImgStatus.CLOSED, tl 6 ImgStatus.CLOSED, tl 7 ImgStatus.CLOSED]] }

/-- Concrete session: a mismatched pair is still showing as CLOSING. -/
def gClosingPair : Game :=
  { token := "tok",
    items :=
      [[tl 0 ImgStatus.CLOSING, tl 1 ImgStatus.CLOSING, tl 0 ImgStatus.CLOSED, tl 1 ImgStatus.CLOSED],
       [tl 2 ImgStatus.CLOSED, tl 3 ImgStatus.CLOSED, tl 2 ImgStatus.CLOSED, tl 3 ImgStatus.CLOSED],
       [tl 4 ImgStatus.CLOSED, tl 5 ImgStatus.CLOSED, tl 4 ImgStatus.CLOSED, tl 5 ImgStatus.CLOSED],
       [tl 6 ImgStatus.CLOSED, tl 7 ImgStatus.CLOSED, tl 6 ImgStatus.CLOSED, tl 7 ImgStatus.CLOSED]] }

/-- Concrete session one reveal away from the win: 14 tiles OPEN, the first
tile of the last pair already TEMP_OPEN, its partner CLOSED at (3, 3). -/
def gNearWin : Game :=
  { token := "tok",
    items :=
      [[tl 0 ImgStatus.OPEN, tl 1 ImgStatus.OPEN, tl 0 ImgStatus.OPEN, tl 1 ImgStatus.OPEN],
       [tl 2 ImgStatus.OPEN, tl 3 ImgStatus.OPEN, tl 2 ImgStatus.OPEN, tl 3 ImgStatus.OPEN],
       [tl 4 ImgStatus.OPEN, tl 5 ImgStatus.OPEN, tl 4 ImgStatus.OPEN, tl 5 ImgStatus.OPEN],
       [tl 7 ImgStatus.OPEN, tl 7 ImgStatus.OPEN, tl 6 ImgStatus.TEMP_OPEN, tl 6 ImgStatus.CLOSED]] }

/-- Expected result of revealing (0, 1) on gMismatch: both selected tiles
CLOSING, score down by 10. -/
def gMismatchAfter : Game :=
  { token := "tok",
    items :=
      [[tl 0 ImgStatus.CLOSING, tl 1 ImgStatus.CLOSING, tl 0 ImgStatus.CLOSED, tl 1 ImgStatus.CLOSED],
       [tl 2 ImgStatus.CLOSED, tl 3 ImgStatus.CLOSED, tl 2 ImgStatus.CLOSED, tl 3 ImgStatus.CLOSED],
       [tl 4 ImgStatus.CLOSED, tl 5 ImgStatus.CLOSED, tl 4 ImgStatus.CLOSED, tl 5 ImgStatus.CLOSED],
       [tl 6 ImgStatus.CLOSED, tl 7 ImgStatus.CLOSED, tl 6 ImgStatus.CLOSED, tl 7 ImgStatus.CLOSED]],
    score := -10 }

/-- Expected result of revealing (0, 2) on gMismatch: the pair of 0s opens,
score up by 30. -/
def gMatchAfter : Game :=
  { token := "tok",
    items :=
      [[tl 0 ImgStatus.OPEN, tl 1 ImgStatus.CLOSED, tl 0 ImgStatus.OPEN, tl 1 ImgStatus.CLOSED],
       [tl 2 ImgStatus.CLOSED, tl 3 ImgStatus.CLOSED, tl 2 ImgStatus.CLOSED, tl 3 ImgStatus.CLOSED],
       [tl 4 ImgStatus.CLOSED, tl 5 ImgStatus.CLOSED, tl 4 ImgStatus.CLOSED, tl 5 ImgStatus.CLOSED],
       [tl 6 ImgStatus.CLOSED, tl 7 ImgStatus.CLOSED, tl 6 ImgStatus.CLOSED, tl 7 ImgStatus.CLOSED]],
    score := 30 }

/-- The state of the winning reveal on gNearWin: all 16 tiles OPEN, score 30,
session ended. -/
def gWonAfter : Game :=
  { token := "tok",
    items :=
      [[tl 0 ImgStatus.OPEN, tl 1 ImgStatus.OPEN, tl 0 ImgStatus.OPEN, tl 1 ImgStatus.OPEN],
       [tl 2 ImgStatus.OPEN, tl 3 ImgStatus.OPEN, tl 2 ImgStatus.OPEN, tl 3 ImgStatus.OPEN],
       [tl 4 ImgStatus.OPEN, tl 5 ImgStatus.OPEN, tl 4 ImgStatus.OPEN, tl 5 ImgStatus.OPEN],
       [tl 7 ImgStatus.OPEN, tl 7 ImgStatus.OPEN, tl 6 ImgStatus.OPEN, tl 6 ImgStatus.OPEN]],
    ended := true,
    score := 30 }

/-! Generic list access lemmas used by the board reasoning. -/

theorem getD_set_self_of_lt {α : Type} (l : List α) (i : Nat) (a d : α)
    (h : i < l.length) : (l.set i a).getD i d = a := by
  rw [List.getD_eq_getElem?_getD, List.getElem?_set_self h, Option.getD_some]

theorem getD_set_of_ne {α : Type} (l : List α) {i j : Nat} (a d : α)
    (h : i ≠ j) : (l.set i a).getD j d = l.getD j d := by
  rw [List.getD_eq_getElem?_getD, List.getElem?_set_ne h, ← List.getD_eq_getElem?_getD]

theorem getD_of_length_le {α : Type} (l : List α) {i : Nat} (d : α)
    (h : l.length ≤ i) : l.getD i d = d := by
  rw [List.getD_eq_getElem?_getD, List.getElem?_eq_none h, Option.getD_none]

theorem getD_map_comm {α β : Type} (f : α → β) (l : List α) (i : Nat) (d : α) :
    (l.map f).getD i (f d) = f (l.getD i d) := by
  rw [List.getD_eq_getElem?_getD, List.getD_eq_getElem?_getD, List.getElem?_map]
  cases l[i]? <;> rfl

theorem getD_mem_of_lt {α : Type} (l : List α) (n : Nat) (d : α)
    (h : n < l.length) : l.getD n d ∈ l := by
  rw [List.getD_eq_getElem l d h]
  exact List.getElem_mem h

theorem set_getD_self {α : Type} (l : List α) (i : Nat) (d : α) :
    l.set i (l.getD i d) = l := by
  induction l generalizing i with
  | nil => rfl
  | cons x t ih =>
    cases i with
    | zero => rfl
    | succ n =>
      simp only [List.getD_cons_succ, List.set_cons_succ]
      rw [ih n]

theorem map_set_comm {α β : Type} (f : α → β) (l : List α) (i : Nat) (a : α) :
    (l.set i a).map f = (l.map f).set i (f a) := by
  induction l generalizing i with
  | nil => rfl
  | cons x t ih => cases i <;> simp [List.set, ih]

theorem length_filter_eq_all {α : Type} (p : α → Bool) (l : List α)
    (h : (l.filter p).length = l.length) : ∀ a ∈ l, p a = true := by
  induction l with
  | nil => intro a ha; cases ha
  | cons x t ih =>
    intro a ha
    by_cases hx : p x = true
    · rcases List.mem_cons.mp ha with rfl | hat
      · exact hx
      · refine ih ?_ a hat
        simpa [List.filter, hx] using h
    · exfalso
      have hfe : List.filter p (x :: t) = List.filter p t := by
        simp [List.filter_cons, hx]
      rw [hfe, List.length_cons] at h
      have hle := List.length_filter_le p t
      omega

/-! Board access lemmas. -/

theorem length_setTile (items : List (List Item)) (r c : Nat) (s : ImgStatus) :
    (setTile items r c s).length = items.length :=
  List.length_set items r _

theorem row_length_setTile (items : List (List Item)) (r c : Nat) (s : ImgStatus) (a : Nat) :
    ((setTile items r c s).getD a []).length = (items.getD a []).length := by
  unfold setTile
  by_cases h : a = r
  · subst h
    rcases Nat.lt_or_ge a items.length with hlt | hle
    · rw [getD_set_self_of_lt _ _ _ _ hlt, List.length_set]
    · rw [List.set_eq_of_length_le hle]
  · rw [getD_set_of_ne _ _ _ (fun he => h he.symm)]

theorem row_closeClosing (items : List (List Item)) (a : Nat) :
    (closeClosing items).getD a [] = (items.getD a []).map closeItem := by
  unfold closeClosing
  simpa using getD_map_comm (fun row => row.map closeItem) items a []

theorem length_closeClosing (items : List (List Item)) :
    (closeClosing items).length = items.length :=
  List.length_map items _

theorem row_length_closeClosing (items : List (List Item)) (a : Nat) :
    ((closeClosing items).getD a []).length = (items.getD a []).length := by
  rw [row_closeClosing, List.length_map]

theorem closeItem_photoId (it : Item) : (closeItem it).photoId = it.photoId := by
  unfold closeItem; split <;> rfl

theorem closeItem_of_ne {it : Item} (h : it.status ≠ ImgStatus.CLOSING) :
    closeItem it = it := by
  unfold closeItem; rw [if_neg h]

theorem closeItem_of_closing {it : Item} (h : it.status = ImgStatus.CLOSING) :
    closeItem it = { it with status := ImgStatus.CLOSED } := by
  unfold closeItem; rw [if_pos h]

theorem getTile_closeClosing (items : List (List Item)) (r c : Nat) :
    getTile (closeClosing items) r c = closeItem (getTile items r c) := by
  unfold getTile
  rw [row_closeClosing]
  have h := getD_map_comm closeItem (items.getD r []) c defaultItem
  have hd : closeItem defaultItem = defaultItem := rfl
  rw [hd] at h
  exact h

theorem getTile_setTile_self (items : List (List Item)) {r c : Nat} (s : ImgStatus)
    (hr : r < items.length) (hc : c < (items.getD r []).length) :
    getTile (setTile items r c s) r c = { getTile items r c with status := s } := by
  unfold getTile setTile
  rw [getD_set_self_of_lt _ _ _ _ hr, getD_set_self_of_lt _ _ _ _ hc]

theorem getTile_setTile_ne (items : List (List Item)) {r c r' c' : Nat} (s : ImgStatus)
    (h : (r', c') ≠ (r, c)) :
    getTile (setTile items r c s) r' c' = getTile items r' c' := by
  unfold getTile setTile
  by_cases hr : r' = r
  · subst hr
    have hc : c ≠ c' := by rintro rfl; exact h rfl
    rcases Nat.lt_or_ge r' items.length with hlt | hle
    · rw [getD_set_self_of_lt _ _ _ _ hlt, getD_set_of_ne _ _ _ hc]
    · rw [List.set_eq_of_length_le hle]
  · rw [getD_set_of_ne _ _ _ (fun he => hr he.symm)]

theorem getTile_setTile_photoId (items : List (List Item)) (r c : Nat) (s : ImgStatus)
    (a b : Nat) :
    (getTile (setTile items r c s) a b).photoId = (getTile items a b).photoId := by
  by_cases hab : (a, b) = (r, c)
  · rw [Prod.mk.injEq] at hab
    obtain ⟨rfl, rfl⟩ := hab
    rcases Nat.lt_or_ge a items.length with hr | hr
    · rcases Nat.lt_or_ge b (items.getD a []).length with hc | hc
      · rw [getTile_setTile_self items s hr hc]
      · unfold setTile getTile
        rw [List.set_eq_of_length_le hc, set_getD_self]
    · unfold setTile
      rw [List.set_eq_of_length_le hr]
  · rw [getTile_setTile_ne items s hab]

/-! Characterization of the TEMP_OPEN scan. -/

theorem mem_tempOpenRow {row : List Item} {j0 j : Nat} :
    j ∈ tempOpenRow j0 row ↔
      ∃ k, k < row.length ∧ j = j0 + k ∧
        (row.getD k defaultItem).status = ImgStatus.TEMP_OPEN := by
  induction row generalizing j0 with
  | nil => simp [tempOpenRow]
  | cons it rest ih =>
    simp only [tempOpenRow]
    by_cases hs : it.status = ImgStatus.TEMP_OPEN
    · rw [if_pos hs]
      constructor
      · intro hmem
        rcases List.mem_cons.mp hmem with rfl | hmem2
        · exact ⟨0, by simp, by omega, by simpa [List.getD_cons_zero] using hs⟩
        · obtain ⟨k, hk, hj, hst⟩ := ih.mp hmem2
          refine ⟨k + 1, by simp; omega, by omega, ?_⟩
          simpa [List.getD_cons_succ] using hst
      · rintro ⟨k, hk, rfl, hst⟩
        cases k with
        | zero => exact List.mem_cons.mpr (Or.inl (by omega))
        | succ n =>
          refine List.mem_cons.mpr (Or.inr (ih.mpr ⟨n, ?_, by omega, ?_⟩))
          · simpa using Nat.lt_of_succ_lt_succ (by simpa using hk)
          · simpa [List.getD_cons_succ] using hst
    · rw [if_neg hs]
      constructor
      · intro hmem
        obtain ⟨k, hk, hj, hst⟩ := ih.mp hmem
        refine ⟨k + 1, by simp; omega, by omega, ?_⟩
        simpa [List.getD_cons_succ] using hst
      · rintro ⟨k, hk, rfl, hst⟩
        cases k with
        | zero => exact absurd (by simpa [List.getD_cons_zero] using hst) hs
        | succ n =>
          refine ih.mpr ⟨n, ?_, by omega, ?_⟩
          · simpa using Nat.lt_of_succ_lt_succ (by simpa using hk)
          · simpa [List.getD_cons_succ] using hst

theorem mem_tempOpenRows {items : List (List Item)} {i0 : Nat} {p : Nat × Nat} :
    p ∈ tempOpenRows i0 items ↔
      ∃ k, k < items.length ∧ p.1 = i0 + k ∧ p.2 ∈ tempOpenRow 0 (items.getD k []) := by
  obtain ⟨a, b⟩ := p
  induction items generalizing i0 with
  | nil => simp [tempOpenRows]
  | cons row rest ih =>
    simp only [tempOpenRows, List.mem_append, List.mem_map]
    constructor
    · rintro (⟨j, hj, hji⟩ | hmem)
      · obtain ⟨rfl, rfl⟩ : i0 = a ∧ j = b := by
          constructor <;> [exact congrArg Prod.fst hji; exact congrArg Prod.snd hji]
        exact ⟨0, by simp, by omega, by simpa [List.getD_cons_zero] using hj⟩
      · obtain ⟨k, hk, h1, h2⟩ := ih.mp hmem
        refine ⟨k + 1, by simp; omega, by omega, ?_⟩
        simpa [List.getD_cons_succ] using h2
    · rintro ⟨k, hk, h1, h2⟩
      cases k with
      | zero =>
        left
        exact ⟨b, by simpa [List.getD_cons_zero] using h2, by simp; omega⟩
      | succ n =>
        right
        refine ih.mpr ⟨n, ?_, by omega, ?_⟩
        · simpa using Nat.lt_of_succ_lt_succ (by simpa using hk)
        · simpa [List.getD_cons_succ] using h2

theorem mem_tempOpenPositions {items : List (List Item)} {p : Nat × Nat} :
    p ∈ tempOpenPositions items ↔
      p.1 < items.length ∧ p.2 < (items.getD p.1 []).length ∧
        (getTile items p.1 p.2).status = ImgStatus.TEMP_OPEN := by
  unfold tempOpenPositions getTile
  rw [mem_tempOpenRows]
  constructor
  · rintro ⟨k, hk, h1, h2⟩
    have hk1 : p.1 = k := by omega
    subst hk1
    obtain ⟨k2, hk2, h3, h4⟩ := mem_tempOpenRow.mp h2
    have hk2' : p.2 = k2 := by omega
    subst hk2'
    exact ⟨hk, hk2, h4⟩
  · rintro ⟨h1, h2, h3⟩
    exact ⟨p.1, h1, by omega, mem_tempOpenRow.mpr ⟨p.2, h2, by omega, h3⟩⟩

/-! Facts about the selection and the reveal result. -/

theorem firstSel_mem {g : Game} {r c : Nat} (h : 2 ≤ (selected g r c).length) :
    firstSel g r c ∈ selected g r c :=
  getD_mem_of_lt _ 0 _ (by omega)

theorem secondSel_mem {g : Game} {r c : Nat} (h : 2 ≤ (selected g r c).length) :
    secondSel g r c ∈ selected g r c :=
  getD_mem_of_lt _ 1 _ (by omega)

theorem sel_spec {g : Game} {r c : Nat} {p : Nat × Nat} (hp : p ∈ selected g r c) :
    p.1 < (afterClean g r c).length ∧ p.2 < ((afterClean g r c).getD p.1 []).length ∧
      (getTile (afterClean g r c) p.1 p.2).status = ImgStatus.TEMP_OPEN := by
  have h := mem_tempOpenPositions.mp hp
  have hne : (getTile (afterSelect g r c) p.1 p.2).status ≠ ImgStatus.CLOSING := by
    rw [h.2.2]; decide
  refine ⟨?_, ?_, ?_⟩
  · unfold afterClean; rw [length_closeClosing]; exact h.1
  · unfold afterClean; rw [row_length_closeClosing]; exact h.2.1
  · unfold afterClean; rw [getTile_closeClosing, closeItem_of_ne hne, h.2.2]

theorem revealCore_ok_cases {g : Game} {r c : Nat} {g' : Game}
    (h : revealCore g r c = Except.ok g') :
    ¬ conflictAt g r c ∧
      (((selected g r c).length < 2 ∧ g' = { g with items := afterClean g r c }) ∨
       (2 ≤ (selected g r c).length ∧
        g' = if countOpen (resolveResult g r c).items = 16
             then { resolveResult g r c with ended := true }
             else resolveResult g r c)) := by
  unfold revealCore at h
  split at h
  · exact absurd h (by simp)
  · rename_i hc
    split at h
    · rename_i hlen
      exact ⟨hc, Or.inl ⟨hlen, (Except.ok.inj h).symm⟩⟩
    · rename_i hlen
      split at h
      · rename_i hwin
        refine ⟨hc, Or.inr ⟨by omega, ?_⟩⟩
        rw [if_pos hwin]
        exact (Except.ok.inj h).symm
      · rename_i hwin
        refine ⟨hc, Or.inr ⟨by omega, ?_⟩⟩
        rw [if_neg hwin]
        exact (Except.ok.inj h).symm

theorem revealCore_conflict {g : Game} {r c : Nat} (h : conflictAt g r c) :
    revealCore g r c = Except.error ApiError.conflict := by
  unfold revealCore
  rw [if_pos h]

theorem revealCore_not_conflict {g : Game} {r c : Nat} (h : ¬ conflictAt g r c) :
    ∃ g', revealCore g r c = Except.ok g' := by
  unfold revealCore
  rw [if_neg h]
  split
  · exact ⟨_, rfl⟩
  · split
    · exact ⟨_, rfl⟩
    · exact ⟨_, rfl⟩

theorem resolveResult_token (g : Game) (r c : Nat) :
    (resolveResult g r c).token = g.token := by
  unfold resolveResult matchResult mismatchResult
  split <;> rfl

theorem resolveResult_ended (g : Game) (r c : Nat) :
    (resolveResult g r c).ended = g.ended := by
  unfold resolveResult matchResult mismatchResult
  split <;> rfl

theorem revealCore_token {g : Game} {r c : Nat} {g' : Game}
    (h : revealCore g r c = Except.ok g') : g'.token = g.token := by
  rcases (revealCore_ok_cases h).2 with ⟨_, rfl⟩ | ⟨_, rfl⟩
  · rfl
  · split
    · exact resolveResult_token g r c
    · exact resolveResult_token g r c

theorem getTile_afterClean_ne {g : Game} {r c : Nat} {q : Nat × Nat} (hq : q ≠ (r, c)) :
    getTile (afterClean g r c) q.1 q.2 = closeItem (getTile g.items q.1 q.2) := by
  unfold afterClean afterSelect
  rw [getTile_closeClosing, getTile_setTile_ne _ _ (by simpa using hq)]

theorem setTwo_status (items : List (List Item)) (p1 p2 : Nat × Nat) (s : ImgStatus)
    (h1r : p1.1 < items.length) (h1c : p1.2 < (items.getD p1.1 []).length)
    (h2r : p2.1 < items.length) (h2c : p2.2 < (items.getD p2.1 []).length) :
    (getTile (setTile (setTile items p1.1 p1.2 s) p2.1 p2.2 s) p1.1 p1.2).status = s ∧
      (getTile (setTile (setTile items p1.1 p1.2 s) p2.1 p2.2 s) p2.1 p2.2).status = s := by
  have h2r' : p2.1 < (setTile items p1.1 p1.2 s).length := by
    rw [length_setTile]; exact h2r
  have h2c' : p2.2 < ((setTile items p1.1 p1.2 s).getD p2.1 []).length := by
    rw [row_length_setTile]; exact h2c
  constructor
  · by_cases hpp : ((p1.1, p1.2) : Nat × Nat) = (p2.1, p2.2)
    · rw [Prod.mk.injEq] at hpp
      obtain ⟨e1, e2⟩ := hpp
      rw [e1, e2] at h2r' h2c' ⊢
      rw [getTile_setTile_self _ _ h2r' h2c']
    · rw [getTile_setTile_ne _ _ hpp, getTile_setTile_self _ _ h1r h1c]
  · rw [getTile_setTile_self _ _ h2r' h2c']

theorem setTwo_ne (items : List (List Item)) (p1 p2 q : Nat × Nat) (s : ImgStatus)
    (hq1 : q ≠ p1) (hq2 : q ≠ p2) :
    getTile (setTile (setTile items p1.1 p1.2 s) p2.1 p2.2 s) q.1 q.2 =
      getTile items q.1 q.2 := by
  rw [getTile_setTile_ne _ _ (by simpa using hq2), getTile_setTile_ne _ _ (by simpa using hq1)]

theorem resolveResult_of_match {g : Game} {r c : Nat} (hm : pairMatches g r c) :
    resolveResult g r c = matchResult g r c := by
  unfold resolveResult; rw [if_pos hm]

theorem resolveResult_of_not_match {g : Game} {r c : Nat} (hm : ¬ pairMatches g r c) :
    resolveResult g r c = mismatchResult g r c := by
  unfold resolveResult; rw [if_neg hm]

theorem revealCore_single_pick {g : Game} {r c : Nat} {g' : Game}
    (h : revealCore g r c = Except.ok g') (hlt : (selected g r c).length < 2) :
    g' = { g with items := afterClean g r c } := by
  rcases (revealCore_ok_cases h).2 with ⟨_, rfl⟩ | ⟨h2, _⟩
  · rfl
  · omega

theorem revealCore_resolve {g : Game} {r c : Nat} {g' : Game}
    (h : revealCore g r c = Except.ok g') (h2 : 2 ≤ (selected g r c).length) :
    g'.items = (resolveResult g r c).items ∧ g'.score = (resolveResult g r c).score ∧
      (countOpen (resolveResult g r c).items = 16 → g'.ended = true) := by
  rcases (revealCore_ok_cases h).2 with ⟨hlt, _⟩ | ⟨_, rfl⟩
  · omega
  · by_cases hw : countOpen (resolveResult g r c).items = 16
    · rw [if_pos hw]
      exact ⟨rfl, rfl, fun _ => rfl⟩
    · rw [if_neg hw]
      exact ⟨rfl, rfl, fun hx => absurd hx hw⟩

theorem closing_closed_next {g : Game} {r c : Nat} {g' : Game}
    (h : revealCore g r c = Except.ok g') :
    ∀ q : Nat × Nat, q ≠ (r, c) →
      (getTile g.items q.1 q.2).status = ImgStatus.CLOSING →
      (getTile g'.items q.1 q.2).status = ImgStatus.CLOSED := by
  intro q hq hcl
  have hclean : getTile (afterClean g r c) q.1 q.2 =
      { getTile g.items q.1 q.2 with status := ImgStatus.CLOSED } := by
    rw [getTile_afterClean_ne hq, closeItem_of_closing hcl]
  rcases Nat.lt_or_ge (selected g r c).length 2 with hlt | h2
  · rw [revealCore_single_pick h hlt]
    show (getTile (afterClean g r c) q.1 q.2).status = ImgStatus.CLOSED
    rw [hclean]
  · have hitems := (revealCore_resolve h h2).1
    have hs1 := sel_spec (firstSel_mem h2)
    have hs2 := sel_spec (secondSel_mem h2)
    have hq1 : q ≠ firstSel g r c := by
      intro he
      rw [← he, hclean] at hs1
      exact absurd hs1.2.2 (by simp)
    have hq2 : q ≠ secondSel g r c := by
      intro he
      rw [← he, hclean] at hs2
      exact absurd hs2.2.2 (by simp)
    rw [hitems]
    unfold resolveResult matchResult mismatchResult
    split
    · show (getTile (setTile (setTile (afterClean g r c) _ _ _) _ _ _) q.1 q.2).status = _
      rw [setTwo_ne _ _ _ _ _ hq1 hq2, hclean]
    · show (getTile (setTile (setTile (afterClean g r c) _ _ _) _ _ _) q.1 q.2).status = _
      rw [setTwo_ne _ _ _ _ _ hq1 hq2, hclean]

/-! Endpoint dispatch lemmas. -/

theorem open_game_pic_none {st : Store} {tok : String} {r c : Nat}
    (hget : storeGet st tok = none) :
    open_game_pic st tok r c = (Except.error ApiError.notFound, st) := by
  unfold open_game_pic
  rw [hget]

theorem open_game_pic_some {st : Store} {tok : String} {r c : Nat} {g : Game}
    (hget : storeGet st tok = some g) :
    open_game_pic st tok r c =
      match revealCore g r c with
      | Except.error e => (Except.error e, st)
      | Except.ok g1 =>
        if g1.ended && !g.ended then (Except.ok g1, storeRemove st g1.token)
        else (Except.ok g1, storeUpdate st tok g1) := by
  unfold open_game_pic
  rw [hget]

theorem frame_core {g : Game} {r c : Nat} {q : Nat × Nat} (hq : q ≠ (r, c)) :
    getTile (afterClean g r c) q.1 q.2 = getTile g.items q.1 q.2 ∨
      ((getTile g.items q.1 q.2).status = ImgStatus.CLOSING ∧
       getTile (afterClean g r c) q.1 q.2 =
         { getTile g.items q.1 q.2 with status := ImgStatus.CLOSED }) := by
  by_cases hcl : (getTile g.items q.1 q.2).status = ImgStatus.CLOSING
  · exact Or.inr ⟨hcl, by rw [getTile_afterClean_ne hq, closeItem_of_closing hcl]⟩
  · exact Or.inl (by rw [getTile_afterClean_ne hq, closeItem_of_ne hcl])

/-- Claim C2: when a reveal makes the second selection of a turn and the two
selected tiles (first two TEMP_OPEN tiles in scan order) carry differing pair
ids, both become CLOSING and the score decreases by exactly 10; the tiles stay
that way in the returned state, and the next successful reveal call anywhere
on the board turns every tile then showing CLOSING to CLOSED before resolving
its own selection (the one tile that reveal addresses becomes the new
selection TEMP_OPEN first, so it is no longer CLOSING at the scan). -/
theorem C2_mismatch_closing_then_closed (g : Game) (r c : Nat) (g' : Game)
    (hok : revealCore g r c = Except.ok g')
    (hsecond : 2 ≤ (selected g r c).length)
    (hdiff : ¬ pairMatches g r c) :
    ((getTile g'.items (firstSel g r c).1 (firstSel g r c).2).status = ImgStatus.CLOSING ∧
     (getTile g'.items (secondSel g r c).1 (secondSel g r c).2).status = ImgStatus.CLOSING ∧
     g'.score = g.score - 10) ∧
    (∀ (r2 c2 : Nat) (g'' : Game), revealCore g' r2 c2 = Except.ok g'' →
      ∀ q : Nat × Nat, q ≠ (r2, c2) →
        (getTile g'.items q.1 q.2).status = ImgStatus.CLOSING →
        (getTile g''.items q.1 q.2).status = ImgStatus.CLOSED) := by
  constructor
  · obtain ⟨hitems, hscore, _⟩ := revealCore_resolve hok hsecond
    rw [resolveResult_of_not_match hdiff] at hitems hscore
    have hs1 := sel_spec (firstSel_mem hsecond)
    have hs2 := sel_spec (secondSel_mem hsecond)
    have hst := setTwo_status (afterClean g r c) (firstSel g r c) (secondSel g r c)
      ImgStatus.CLOSING hs1.1 hs1.2.1 hs2.1 hs2.2.1
    refine ⟨?_, ?_, ?_⟩
    · rw [hitems]; exact hst.1
    · rw [hitems]; exact hst.2
    · rw [hscore]; rfl
  · intro r2 c2 g'' hok2 q hq hcl
    exact closing_closed_next hok2 q hq hcl

/-- Witness for C2 at a concrete session: revealing (0, 1) on gMismatch makes
both selected tiles CLOSING and drops the score by 10. -/
theorem C2_mismatch_witness :
    (getTile gMismatchAfter.items 0 0).status = ImgStatus.CLOSING ∧
    (getTile gMismatchAfter.items 0 1).status = ImgStatus.CLOSING ∧
    gMismatchAfter.score = gMismatch.score - 10 := by
  have h := C2_mismatch_closing_then_closed gMismatch 0 1 gMismatchAfter
    (by decide) (by decide) (by decide)
  obtain ⟨h1, h2, h3⟩ := h.1
  have e1 : firstSel gMismatch 0 1 = (0, 0) := by decide
  have e2 : secondSel gMismatch 0 1 = (0, 1) := by decide
  rw [e1] at h1
  rw [e2] at h2
  exact ⟨h1, h2, h3⟩

/-- Claim C3: when a reveal makes the second selection of a turn and the two
selected tiles (the first two TEMP_OPEN tiles in row-major scan order) carry
the same pair id, both become OPEN and the score increases by exactly 30; and
a reveal changes the score by +30 only through that outcome (the single-pick
case keeps the score, the mismatch case subtracts 10). -/
theorem C3_match_open_plus_thirty (g : Game) (r c : Nat) (g' : Game)
    (hok : revealCore g r c = Except.ok g') :
    (2 ≤ (selected g r c).length → pairMatches g r c →
      (getTile g'.items (firstSel g r c).1 (firstSel g r c).2).status = ImgStatus.OPEN ∧
      (getTile g'.items (secondSel g r c).1 (secondSel g r c).2).status = ImgStatus.OPEN ∧
      g'.score = g.score + 30) ∧
    (g'.score = g.score + 30 → 2 ≤ (selected g r c).length ∧ pairMatches g r c) := by
  constructor
  · intro h2 hm
    obtain ⟨hitems, hscore, _⟩ := revealCore_resolve hok h2
    rw [resolveResult_of_match hm] at hitems hscore
    have hs1 := sel_spec (firstSel_mem h2)
    have hs2 := sel_spec (secondSel_mem h2)
    have hst := setTwo_status (afterClean g r c) (firstSel g r c) (secondSel g r c)
      ImgStatus.OPEN hs1.1 hs1.2.1 hs2.1 hs2.2.1
    refine ⟨?_, ?_, ?_⟩
    · rw [hitems]; exact hst.1
    · rw [hitems]; exact hst.2
    · rw [hscore]; rfl
  · intro hsc
    rcases Nat.lt_or_ge (selected g r c).length 2 with hlt | h2
    · exfalso
      have hsp := revealCore_single_pick hok hlt
      rw [hsp] at hsc
      have h30 : g.score = g.score + 30 := hsc
      omega
    · refine ⟨h2, ?_⟩
      by_contra hm
      obtain ⟨_, hscore, _⟩ := revealCore_resolve hok h2
      rw [resolveResult_of_not_match hm] at hscore
      rw [hscore] at hsc
      have h40 : g.score - 10 = g.score + 30 := hsc
      omega

/-- Witness for C3 at a concrete session: revealing (0, 2) on gMismatch opens
the pair of 0s and adds exactly 30 to the score. -/
theorem C3_match_witness :
    (getTile gMatchAfter.items 0 0).status = ImgStatus.OPEN ∧
    (getTile gMatchAfter.items 0 2).status = ImgStatus.OPEN ∧
    gMatchAfter.score = gMismatch.score + 30 := by
  have h := (C3_match_open_plus_thirty gMismatch 0 2 gMatchAfter (by decide)).1
    (by decide) (by decide)
  obtain ⟨h1, h2, h3⟩ := h
  have e1 : firstSel gMismatch 0 2 = (0, 0) := by decide
  have e2 : secondSel gMismatch 0 2 = (0, 2) := by decide
  rw [e1] at h1
  rw [e2] at h2
  exact ⟨h1, h2, h3⟩

/-- Claim C4: if the addressed tile is already OPEN or TEMP_OPEN, the reveal
endpoint fails with Conflict (HTTP 409) and the session store — hence every
stored session, board and score — is returned unchanged. -/
theorem C4_conflict_unchanged (st : Store) (tok : String) (r c : Nat) (g : Game)
    (hget : storeGet st tok = some g)
    (hvis : conflictAt g r c) :
    open_game_pic st tok r c = (Except.error ApiError.conflict, st) := by
  rw [open_game_pic_some hget, revealCore_conflict hvis]

/-- Witness for C4: tile (0, 0) of gMismatch is TEMP_OPEN, so revealing it
returns Conflict and leaves the store exactly as it was. -/
theorem C4_conflict_witness :
    open_game_pic [("tok", gMismatch)] "tok" 0 0 =
      (Except.error ApiError.conflict, [("tok", gMismatch)]) :=
  C4_conflict_unchanged [("tok", gMismatch)] "tok" 0 0 gMismatch (by decide) (by decide)

/-- Claim C10: on a 4 by 4 board with in-range coordinates, the reveal body
raises Conflict exactly when the addressed tile is OPEN or TEMP_OPEN; a
CLOSING tile is revealable: the reveal succeeds, the tile is collected as that
turns selection, and when it is the first pick it is left TEMP_OPEN — so a
just-mismatched tile can be re-selected on the very next reveal. -/
theorem C10_conflict_iff_closing_revealable (g : Game) (r c : Nat)
    (hlen : g.items.length = 4) (hrows : ∀ row ∈ g.items, row.length = 4)
    (hr : r ≤ 3) (hc : c ≤ 3) :
    (revealCore g r c = Except.error ApiError.conflict ↔ conflictAt g r c) ∧
    ((getTile g.items r c).status = ImgStatus.CLOSING →
      ∃ g', revealCore g r c = Except.ok g' ∧ (r, c) ∈ selected g r c ∧
        ((selected g r c).length < 2 →
          (getTile g'.items r c).status = ImgStatus.TEMP_OPEN)) := by
  have hrl : r < g.items.length := by omega
  have hcl2 : c < (g.items.getD r []).length := by
    rw [hrows _ (getD_mem_of_lt _ _ _ hrl)]
    omega
  constructor
  · constructor
    · intro he
      by_contra hcon
      obtain ⟨g', hok⟩ := revealCore_not_conflict hcon
      rw [hok] at he
      exact Except.noConfusion he
    · exact revealCore_conflict
  · intro hclosing
    have hcon : ¬ conflictAt g r c := by
      unfold conflictAt
      rw [hclosing]
      decide
    obtain ⟨g', hok⟩ := revealCore_not_conflict hcon
    have hsel : (getTile (afterSelect g r c) r c).status = ImgStatus.TEMP_OPEN := by
      unfold afterSelect
      rw [getTile_setTile_self _ _ hrl hcl2]
    refine ⟨g', hok, ?_, ?_⟩
    · apply mem_tempOpenPositions.mpr
      refine ⟨?_, ?_, hsel⟩
      · show r < (afterSelect g r c).length
        unfold afterSelect
        rw [length_setTile]
        exact hrl
      · show c < ((afterSelect g r c).getD r []).length
        unfold afterSelect
        rw [row_length_setTile]
        exact hcl2
    · intro hlt
      rw [revealCore_single_pick hok hlt]
      show (getTile (afterClean g r c) r c).status = ImgStatus.TEMP_OPEN
      unfold afterClean
      rw [getTile_closeClosing, closeItem_of_ne (by rw [hsel]; decide), hsel]

/-- Witness for C10 at a concrete session: the CLOSING tile (0, 0) of
gClosingPair is revealable and ends up TEMP_OPEN as the turns first pick. -/
theorem C10_closing_witness :
    (revealCore gClosingPair 0 0 = Except.error ApiError.conflict ↔
      conflictAt gClosingPair 0 0) ∧
    (∃ g', revealCore gClosingPair 0 0 = Except.ok g' ∧
      (0, 0) ∈ selected gClosingPair 0 0 ∧
      ((selected gClosingPair 0 0).length < 2 →
        (getTile g'.items 0 0).status = ImgStatus.TEMP_OPEN)) := by
  have h := C10_conflict_iff_closing_revealable gClosingPair 0 0
    (by decide) (by decide) (by decide) (by decide)
  exact ⟨h.1, h.2 (by decide)⟩

/-- Counterexample for C8 as stated: on gAllClosed, revealing (0, 0) is a
single-pick reveal (fewer than two selections), yet the board does NOT stay
untouched — the addressed tile flips to TEMP_OPEN. -/
theorem C8_single_pick_mutates :
    (selected gAllClosed 0 0).length < 2 ∧
    revealCore gAllClosed 0 0 =
      Except.ok { gAllClosed with items := afterClean gAllClosed 0 0 } ∧
    ({ gAllClosed with items := afterClean gAllClosed 0 0 } : Game).items ≠
      gAllClosed.items ∧
    (getTile (afterClean gAllClosed 0 0) 0 0).status = ImgStatus.TEMP_OPEN := by
  decide

/-- Claim C8 as amended: a successful reveal mutates at most the addressed
tile and the two tiles resolved this turn, plus CLOSING to CLOSED cleanups —
every other tile is untouched; in the single-pick case every tile other than
the addressed one is untouched except for those cleanups.  (The conflict case
leaves everything unchanged, see the C4 theorem.) -/
theorem C8_frame_amended (g : Game) (r c : Nat) (g' : Game)
    (hok : revealCore g r c = Except.ok g') :
    (∀ q : Nat × Nat, q ≠ (r, c) → q ≠ firstSel g r c → q ≠ secondSel g r c →
      getTile g'.items q.1 q.2 = getTile g.items q.1 q.2 ∨
      ((getTile g.items q.1 q.2).status = ImgStatus.CLOSING ∧
       getTile g'.items q.1 q.2 =
         { getTile g.items q.1 q.2 with status := ImgStatus.CLOSED })) ∧
    ((selected g r c).length < 2 → ∀ q : Nat × Nat, q ≠ (r, c) →
      getTile g'.items q.1 q.2 = getTile g.items q.1 q.2 ∨
      ((getTile g.items q.1 q.2).status = ImgStatus.CLOSING ∧
       getTile g'.items q.1 q.2 =
         { getTile g.items q.1 q.2 with status := ImgStatus.CLOSED })) := by
  constructor
  · intro q hq hq1 hq2
    rcases Nat.lt_or_ge (selected g r c).length 2 with hlt | h2
    · rw [revealCore_single_pick hok hlt]
      exact frame_core hq
    · have hitems := (revealCore_resolve hok h2).1
      rw [hitems]
      have hclean := frame_core (g := g) (r := r) (c := c) hq
      unfold resolveResult matchResult mismatchResult
      split
      · show getTile (setTile (setTile (afterClean g r c) _ _ _) _ _ _) q.1 q.2 = _ ∨ _
        rw [setTwo_ne _ _ _ _ _ hq1 hq2]
        exact hclean
      · show getTile (setTile (setTile (afterClean g r c) _ _ _) _ _ _) q.1 q.2 = _ ∨ _
        rw [setTwo_ne _ _ _ _ _ hq1 hq2]
        exact hclean
  · intro hlt q hq
    rw [revealCore_single_pick hok hlt]
    exact frame_core hq

/-- Witness for the amended C8: in the concrete mismatch reveal on gMismatch,
the uninvolved tile (2, 2) is untouched. -/
theorem C8_frame_witness :
    getTile gMismatchAfter.items 2 2 = getTile gMismatch.items 2 2 ∨
    ((getTile gMismatch.items 2 2).status = ImgStatus.CLOSING ∧
     getTile gMismatchAfter.items 2 2 =
       { getTile gMismatch.items 2 2 with status := ImgStatus.CLOSED }) :=
  (C8_frame_amended gMismatch 0 1 gMismatchAfter (by decide)).1 (2, 2)
    (by decide) (by decide) (by decide)

/-- Claim C1 (code bug): contrary to the claim, a freshly built board does not
start with its 16 tiles CLOSED — Item(photoId=p) takes the pydantic Field
default ImgStatus.CLOSING (source line 36), so every tile of every fresh
board is CLOSING (and only flips to CLOSED during the first reveal scan).
Evaluated here at the identity shuffle basePhotos. -/
theorem C1_fresh_tiles_closing :
    (getTile (createItems basePhotos) 0 0).status = ImgStatus.CLOSING ∧
    (createItems basePhotos).all
      (fun row => row.all (fun it => decide (it.status = ImgStatus.CLOSING))) = true ∧
    ¬ (getTile (createItems basePhotos) 0 0).status = ImgStatus.CLOSED := by
  decide

/-- Claim C6 (code bug): the response serialization induced by
response_model=Game carries photoId for every tile, whatever its status.  On
the concrete all-CLOSED session gAllClosed, the serialized cell for the
CLOSED tile at (0, 1) contains its pair id — the claim says CLOSED and
CLOSING tiles must expose only their status. -/
theorem C6_closed_photoId_exposed :
    (getTile gAllClosed.items 0 1).status = ImgStatus.CLOSED ∧
    ((serializeGame gAllClosed).items.getD 0 []).getD 1 (0, ImgStatus.OPEN) =
      ((getTile gAllClosed.items 0 1).photoId, ImgStatus.CLOSED) ∧
    (getTile gAllClosed.items 0 1).photoId = 1 := by
  decide

/-! Support for the win-detection claim. -/

theorem storeGet_storeRemove (st : Store) (tok : String) :
    storeGet (storeRemove st tok) tok = none := by
  induction st with
  | nil => rfl
  | cons e rest ih =>
    unfold storeRemove storeGet at ih ⊢
    cases hcase : (e.1 == tok) with
    | true =>
      rw [List.filter_cons, if_neg (by simp [hcase])]
      exact ih
    | false =>
      rw [List.filter_cons, if_pos (by simp [hcase]), List.find?_cons]
      simp only [hcase]
      exact ih

theorem countOpen_le_total (items : List (List Item)) :
    countOpen items ≤ (items.map List.length).sum := by
  unfold countOpen
  rw [List.length_flatten, List.map_map]
  exact List.sum_le_sum (fun row _ => List.length_filter_le _ row)

theorem countOpen_cons (r0 : List Item) (rest : List (List Item)) :
    countOpen (r0 :: rest) =
      (r0.filter (fun it => it.status = ImgStatus.OPEN)).length + countOpen rest := by
  unfold countOpen
  simp [List.length_append]

theorem all_open_of_countOpen_eq_total (items : List (List Item))
    (h : countOpen items = (items.map List.length).sum) :
    ∀ row ∈ items, ∀ it ∈ row, it.status = ImgStatus.OPEN := by
  induction items with
  | nil => intro row hrow; cases hrow
  | cons r0 rest ih =>
    rw [countOpen_cons] at h
    rw [List.map_cons, List.sum_cons] at h
    have hle1 := List.length_filter_le
      (fun it => decide (it.status = ImgStatus.OPEN)) r0
    have hle2 := countOpen_le_total rest
    have he1 : (r0.filter (fun it => it.status = ImgStatus.OPEN)).length = r0.length := by
      omega
    have he2 : countOpen rest = (rest.map List.length).sum := by omega
    intro row hrow it hit
    rcases List.mem_cons.mp hrow with rfl | hrest
    · exact of_decide_eq_true (length_filter_eq_all _ _ he1 it hit)
    · exact ih he2 row hrest it hit

theorem total_of_wf (items : List (List Item)) (hw : wf4x4 items) :
    (items.map List.length).sum = 16 := by
  obtain ⟨h4, hrows⟩ := hw
  have hconst : ∀ b ∈ items.map List.length, b = 4 := by
    intro b hb
    obtain ⟨row, hrow, rfl⟩ := List.mem_map.mp hb
    exact hrows row hrow
  rw [List.eq_replicate_of_mem hconst, List.length_map, h4, List.sum_replicate]
  rfl

theorem wf4x4_setTile {items : List (List Item)} (hw : wf4x4 items)
    (r c : Nat) (s : ImgStatus) : wf4x4 (setTile items r c s) := by
  by_cases hr : r < items.length
  · constructor
    · rw [length_setTile]; exact hw.1
    · intro row hrow
      unfold setTile at hrow
      rcases List.mem_or_eq_of_mem_set hrow with hmem | rfl
      · exact hw.2 row hmem
      · rw [List.length_set]
        exact hw.2 _ (getD_mem_of_lt _ _ _ hr)
  · unfold setTile
    rw [List.set_eq_of_length_le (Nat.le_of_not_lt hr)]
    exact hw

theorem wf4x4_closeClosing {items : List (List Item)} (hw : wf4x4 items) :
    wf4x4 (closeClosing items) := by
  constructor
  · rw [length_closeClosing]; exact hw.1
  · intro row hrow
    unfold closeClosing at hrow
    obtain ⟨row0, hrow0, rfl⟩ := List.mem_map.mp hrow
    rw [List.length_map]
    exact hw.2 row0 hrow0

theorem wf4x4_afterClean {g : Game} (hw : wf4x4 g.items) (r c : Nat) :
    wf4x4 (afterClean g r c) :=
  wf4x4_closeClosing (wf4x4_setTile hw r c ImgStatus.TEMP_OPEN)

theorem revealCore_ended_of_full {g : Game} {r c : Nat} {g' : Game}
    (hok : revealCore g r c = Except.ok g')
    (hw : wf4x4 g.items) (hr : r ≤ 3) (hc : c ≤ 3)
    (hfull : countOpen g'.items = 16) : g'.ended = true := by
  rcases Nat.lt_or_ge (selected g r c).length 2 with hlt | h2
  · exfalso
    have hitems : g'.items = afterClean g r c := by
      rw [revealCore_single_pick hok hlt]
    have htot : ((afterClean g r c).map List.length).sum = 16 :=
      total_of_wf _ (wf4x4_afterClean hw r c)
    have hall := all_open_of_countOpen_eq_total (afterClean g r c)
      (by rw [htot, ← hitems]; exact hfull)
    have hrl : r < g.items.length := by rw [hw.1]; omega
    have hcl2 : c < (g.items.getD r []).length := by
      rw [hw.2 _ (getD_mem_of_lt _ _ _ hrl)]; omega
    have hsel : (getTile (afterSelect g r c) r c).status = ImgStatus.TEMP_OPEN := by
      unfold afterSelect
      rw [getTile_setTile_self _ _ hrl hcl2]
    have hclean : (getTile (afterClean g r c) r c).status = ImgStatus.TEMP_OPEN := by
      unfold afterClean
      rw [getTile_closeClosing, closeItem_of_ne (by rw [hsel]; decide), hsel]
    have hrl' : r < (afterClean g r c).length := by
      unfold afterClean afterSelect
      rw [length_closeClosing, length_setTile]
      exact hrl
    have hcl' : c < ((afterClean g r c).getD r []).length := by
      unfold afterClean afterSelect
      rw [row_length_closeClosing, row_length_setTile]
      exact hcl2
    have hopen := hall ((afterClean g r c).getD r []) (getD_mem_of_lt _ _ [] hrl')
      (((afterClean g r c).getD r []).getD c defaultItem)
      (getD_mem_of_lt _ _ defaultItem hcl')
    rw [show ((afterClean g r c).getD r []).getD c defaultItem =
        getTile (afterClean g r c) r c from rfl, hclean] at hopen
    exact absurd hopen (by decide)
  · refine (revealCore_resolve hok h2).2.2 ?_
    rw [← (revealCore_resolve hok h2).1]
    exact hfull

theorem open_game_pic_error_dispatch {st : Store} {tok : String} {r c : Nat}
    {g : Game} {e : ApiError}
    (hget : storeGet st tok = some g)
    (hrc : revealCore g r c = Except.error e) :
    open_game_pic st tok r c = (Except.error e, st) := by
  rw [open_game_pic_some hget, hrc]

theorem open_game_pic_ok_dispatch {st : Store} {tok : String} {r c : Nat}
    {g g1 : Game}
    (hget : storeGet st tok = some g)
    (hrc : revealCore g r c = Except.ok g1) :
    open_game_pic st tok r c =
      if g1.ended && !g.ended then (Except.ok g1, storeRemove st g1.token)
      else (Except.ok g1, storeUpdate st tok g1) := by
  rw [open_game_pic_some hget, hrc]

/-- Claim C5: when a reveal results in all 16 tiles OPEN, the ended
flag becomes true and the session is popped from the store, so any subsequent
get or reveal with that token fails with NotFound (and leaves the store as
is). -/
theorem C5_win_ends_session (st : Store) (tok : String) (r c : Nat)
    (g g' : Game) (st' : Store)
    (hget : storeGet st tok = some g)
    (htok : g.token = tok)
    (hended : g.ended = false)
    (hw : wf4x4 g.items) (hr : r ≤ 3) (hc : c ≤ 3)
    (hopen : open_game_pic st tok r c = (Except.ok g', st'))
    (hfull : countOpen g'.items = 16) :
    g'.ended = true ∧ storeGet st' tok = none ∧
    get_game_by_token st' tok = Except.error ApiError.notFound ∧
    ∀ r2 c2 : Nat,
      open_game_pic st' tok r2 c2 = (Except.error ApiError.notFound, st') := by
  cases hrc : revealCore g r c with
  | error e =>
    rw [open_game_pic_error_dispatch hget hrc] at hopen
    exact Except.noConfusion (congrArg Prod.fst hopen)
  | ok g1 =>
    rw [open_game_pic_ok_dispatch hget hrc] at hopen
    have hg1 : g1 = g' := by
      by_cases hcond : (g1.ended && !g.ended) = true
      · rw [if_pos hcond] at hopen
        exact Except.ok.inj (congrArg Prod.fst hopen)
      · rw [if_neg hcond] at hopen
        exact Except.ok.inj (congrArg Prod.fst hopen)
    subst hg1
    have hend : g1.ended = true := revealCore_ended_of_full hrc hw hr hc hfull
    have hcond : (g1.ended && !g.ended) = true := by rw [hend, hended]; rfl
    rw [if_pos hcond] at hopen
    have hst' : st' = storeRemove st g1.token := (congrArg Prod.snd hopen).symm
    have htok1 : g1.token = g.token := revealCore_token hrc
    have hnone : storeGet st' tok = none := by
      rw [hst', htok1, htok]
      exact storeGet_storeRemove st tok
    refine ⟨hend, hnone, ?_, ?_⟩
    · unfold get_game_by_token
      rw [hnone]
    · intro r2 c2
      exact open_game_pic_none hnone

/-- Witness for C5 at a concrete session: revealing (3, 3) on gNearWin opens
the last pair; the session ends, is removed from the store, and both lookup
and reveal on the emptied store return NotFound. -/
theorem C5_win_witness :
    gWonAfter.ended = true ∧ storeGet ([] : Store) "tok" = none ∧
    get_game_by_token ([] : Store) "tok" = Except.error ApiError.notFound ∧
    open_game_pic ([] : Store) "tok" 0 0 =
      (Except.error ApiError.notFound, ([] : Store)) := by
  have h := C5_win_ends_session [("tok", gNearWin)] "tok" 3 3 gNearWin gWonAfter []
    (by decide) (by decide) (by decide) (by decide) (by decide) (by decide)
    (by decide) (by decide)
  exact ⟨h.1, h.2.1, h.2.2.1, h.2.2.2 0 0⟩

/-! Support for the board invariant claim. -/

theorem photoGrid_closeClosing (items : List (List Item)) :
    photoGrid (closeClosing items) = photoGrid items := by
  unfold photoGrid closeClosing
  rw [List.map_map]
  refine List.map_congr_left (fun row _ => ?_)
  show (row.map closeItem).map Item.photoId = row.map Item.photoId
  rw [List.map_map]
  exact List.map_congr_left (fun it _ => closeItem_photoId it)

theorem photoGrid_setTile (items : List (List Item)) (r c : Nat) (s : ImgStatus) :
    photoGrid (setTile items r c s) = photoGrid items := by
  unfold photoGrid setTile
  rw [map_set_comm, map_set_comm]
  dsimp only
  have h2 : ((items.getD r []).getD c defaultItem).photoId
      = ((items.getD r []).map Item.photoId).getD c defaultItem.photoId :=
    (getD_map_comm Item.photoId (items.getD r []) c defaultItem).symm
  have h1 : ((items.getD r []).map Item.photoId)
      = (items.map (fun row => row.map Item.photoId)).getD r [] := by
    simpa using (getD_map_comm (fun row => row.map Item.photoId) items r []).symm
  rw [h2, h1, set_getD_self, set_getD_self]

theorem photoGrid_revealCore {g : Game} {r c : Nat} {g' : Game}
    (hok : revealCore g r c = Except.ok g') :
    photoGrid g'.items = photoGrid g.items := by
  have hclean : photoGrid (afterClean g r c) = photoGrid g.items := by
    unfold afterClean afterSelect
    rw [photoGrid_closeClosing, photoGrid_setTile]
  rcases Nat.lt_or_ge (selected g r c).length 2 with hlt | h2
  · rw [revealCore_single_pick hok hlt]
    exact hclean
  · rw [(revealCore_resolve hok h2).1]
    unfold resolveResult matchResult mismatchResult
    split
    · show photoGrid (setTile (setTile (afterClean g r c) _ _ _) _ _ _) = _
      rw [photoGrid_setTile, photoGrid_setTile, hclean]
    · show photoGrid (setTile (setTile (afterClean g r c) _ _ _) _ _ _) = _
      rw [photoGrid_setTile, photoGrid_setTile, hclean]

theorem wf4x4_createItems (photos : List Nat) (h : photos.length = 16) :
    wf4x4 (createItems photos) := by
  constructor
  · simp [createItems]
  · intro row hrow
    unfold createItems at hrow
    obtain ⟨i, hi, rfl⟩ := List.mem_map.mp hrow
    rw [List.length_map, List.length_take, List.length_drop, h]
    have hi4 : i < 4 := List.mem_range.mp hi
    exact Nat.min_eq_left (by omega)

theorem flatten_photoGrid_createItems (photos : List Nat) (h : photos.length = 16) :
    (photoGrid (createItems photos)).flatten = photos := by
  unfold photoGrid createItems
  rw [List.map_map]
  have hrow : ∀ i ∈ List.range 4,
      ((fun row => row.map Item.photoId) ∘
        (fun i => ((photos.drop (i * 4)).take 4).map (fun p => ({ photoId := p } : Item)))) i
      = (photos.drop (i * 4)).take 4 := by
    intro i _
    show (((photos.drop (i * 4)).take 4).map (fun p => ({ photoId := p } : Item))).map
        Item.photoId = _
    rw [List.map_map]
    have hid : (Item.photoId ∘ fun p => ({ photoId := p } : Item)) = id :=
      funext (fun p => rfl)
    rw [hid, List.map_id]
  rw [List.map_congr_left hrow]
  show photos.take 4 ++ ((photos.drop 4).take 4 ++ ((photos.drop 8).take 4 ++
    ((photos.drop 12).take 4 ++ []))) = photos
  have h12 : (photos.drop 12).take 4 = photos.drop 12 := by
    have hl : (photos.drop 12).length = 4 := by rw [List.length_drop, h]
    rw [← hl, List.take_length]
  have h8 : (photos.drop 8).take 4 ++ photos.drop 12 = photos.drop 8 := by
    have hd : (photos.drop 8).drop 4 = photos.drop 12 := by
      rw [List.drop_drop]
    rw [← hd, List.take_append_drop]
  have h4 : (photos.drop 4).take 4 ++ photos.drop 8 = photos.drop 4 := by
    have hd : (photos.drop 4).drop 4 = photos.drop 8 := by
      rw [List.drop_drop]
    rw [← hd, List.take_append_drop]
  rw [List.append_nil, h12, h8, h4, List.take_append_drop]

theorem count_basePhotos (v : Nat) : basePhotos.count v = if v < 8 then 2 else 0 := by
  unfold basePhotos
  rw [List.count_append]
  by_cases hv : v < 8
  · rw [if_pos hv,
      List.count_eq_one_of_mem (List.nodup_range 8) (List.mem_range.mpr hv)]
  · rw [if_neg hv,
      List.count_eq_zero_of_not_mem (fun hmem => hv (List.mem_range.mp hmem))]

/-- Claim C7: a created board (any shuffle outcome, i.e. any permutation of
list(range(8)) * 2) is a 4 by 4 grid of 16 tiles whose pair ids are exactly
the values 0..7, each occurring exactly twice; and no successful reveal
(including the one that ends the session) ever changes any tiles pair id or
the arrangement — the whole pair-id grid is left intact. -/
theorem C7_board_invariant (photos : List Nat) (hperm : photos.Perm basePhotos) :
    (wf4x4 (createItems photos) ∧
     ∀ v : Nat,
       (photoGrid (createItems photos)).flatten.count v = if v < 8 then 2 else 0) ∧
    (∀ (g : Game) (r c : Nat) (g' : Game), revealCore g r c = Except.ok g' →
      photoGrid g'.items = photoGrid g.items ∧
      g'.items.length = g.items.length ∧
      ∀ a : Nat, (g'.items.getD a []).length = (g.items.getD a []).length) := by
  have hlen : photos.length = 16 := by
    rw [hperm.length_eq]
    rfl
  constructor
  · refine ⟨wf4x4_createItems photos hlen, fun v => ?_⟩
    rw [flatten_photoGrid_createItems photos hlen, hperm.count_eq v,
      count_basePhotos v]
  · intro g r c g' hok
    have hpg := photoGrid_revealCore hok
    have hrowlen : ∀ (items : List (List Item)) (a : Nat),
        ((photoGrid items).getD a []).length = (items.getD a []).length := by
      intro items a
      have hgd : (photoGrid items).getD a [] = (items.getD a []).map Item.photoId := by
        unfold photoGrid
        simpa using getD_map_comm (fun row => row.map Item.photoId) items a []
      rw [hgd, List.length_map]
    refine ⟨hpg, ?_, fun a => ?_⟩
    · have : (photoGrid g'.items).length = (photoGrid g.items).length := by rw [hpg]
      unfold photoGrid at this
      rwa [List.length_map, List.length_map] at this
    · rw [← hrowlen g'.items a, ← hrowlen g.items a, hpg]

/-- Witness for C7: the identity shuffle builds a well-formed board with pair
id 3 occurring twice, and the concrete match reveal on gMismatch leaves the
pair-id grid unchanged. -/
theorem C7_board_witness :
    wf4x4 (createItems basePhotos) ∧
    (photoGrid (createItems basePhotos)).flatten.count 3 = (if 3 < 8 then 2 else 0) ∧
    photoGrid gMatchAfter.items = photoGrid gMismatch.items := by
  have h := C7_board_invariant basePhotos (List.Perm.refl basePhotos)
  exact ⟨h.1.1, h.1.2 3, (h.2 gMismatch 0 2 gMatchAfter (by decide)).1⟩
